import Mathlib

/-!
Verification development for the AuraSync real-time audio analysis engine.

The engine lives in a web worker: per tick it receives a raw frame
(a byte magnitude spectrum, a byte waveform, a sample rate) and produces one
feature frame.  The worker keeps module-level mutable state (ODF history,
chroma smoothing accumulator, adaptive envelopes, transient/drop detector
state, BPM detector, timbre analyzer histories).

This file is a shallow embedding of that code:

* JavaScript numbers are modelled as `ℚ`; every arithmetic operation of the
  source is mirrored exactly (the idealisation is that each float operation
  is exact).  Where a JavaScript expression can produce a non-finite value
  (`NaN` or `±Infinity`, always via a vanishing denominator here), the model
  returns `Option ℚ` with `none` standing for "not a finite number".
* `Math.sqrt` and `Math.log2` are transcendental; they are supplied through a
  `MathModel` record of functions `ℚ → ℚ`.  Theorems that depend on their
  values quantify over the model; closed evaluations instantiate it with
  `refMM`, whose square root agrees with the real one on perfect squares
  (all concrete inputs below are engineered so that every square root whose
  value matters is a perfect square, and every other use is irrelevant to the
  stated conclusion).
* Mutable state is threaded explicitly: each stateful function takes the
  state it reads and returns the state it writes.
* JavaScript quirks that the control flow depends on are modelled faithfully
  and commented at the point of use (e.g. `x % y` truncates toward zero,
  comparisons with `NaN` are false, `Math.max()` of an empty spread is
  `-Infinity`, out-of-range typed-array reads give `undefined`).
-/

namespace AuraSync

/-- Model of the transcendental JavaScript math functions used by the engine.
`sqrtQ` stands for `Math.sqrt` and `log2Q` for `Math.log2`. -/
structure MathModel where
  sqrtQ : ℚ → ℚ
  log2Q : ℚ → ℚ

/-- Fuelled Newton iteration for the integer square root (structural
recursion so that it reduces inside the kernel; 128 steps are enough for any
number below `2 ^ 128`, far beyond every concrete evaluation below). -/
def isqrtF : ℕ → ℕ → ℕ → ℕ
  | 0, _, g => g
  | fuel + 1, n, g =>
    let g' := (g + n / g) / 2
    if g' < g then isqrtF fuel n g' else g

/-- A computable stand-in for `Math.sqrt`: exact on nonnegative rationals that
are perfect squares (numerator and denominator both squares), and the
arbitrary positive placeholder `1` elsewhere.  Closed theorems below only
evaluate it where the exact value or mere positivity matters. -/
def ratSqrt (q : ℚ) : ℚ :=
  let n := q.num.toNat
  let d := q.den
  let sn := isqrtF 128 n n
  let sd := isqrtF 128 d d
  if 0 ≤ q.num ∧ sn * sn = n ∧ sd * sd = d then (sn : ℚ) / (sd : ℚ) else 1

/-- Reference instantiation of the math model used by the concrete
evaluations below.  `log2Q` is a placeholder: no stated conclusion depends on
its values (they only move chroma weight between pitch classes or pick a note
label, and the theorems using this model never assert those). -/
def refMM : MathModel := ⟨ratSqrt, fun _ => 0⟩

/-- Source `calculateMedian` core (shared verbatim by the worker helper and by
the inline median of `BPMDetector`): sort ascending, take the middle element,
or the mean of the two middle elements. -/
def sortedMedian (arr : List ℚ) : ℚ :=
  let sorted := List.insertionSort (· ≤ ·) arr
  let mid := sorted.length / 2
  if sorted.length % 2 ≠ 0 then sorted.getD mid 0
  else (sorted.getD (mid - 1) 0 + sorted.getD mid 0) / 2

/-- Worker `calculateMedian`: 0 on the empty list, otherwise the median. -/
def calculateMedian (arr : List ℚ) : ℚ :=
  if arr.length = 0 then 0 else sortedMedian arr

/-- Source `A_WEIGHTING`: perceptual A-weighting curve. -/
def A_WEIGHTING (mm : MathModel) (freq : ℚ) : ℚ :=
  let f2 := freq * freq
  let f4 := f2 * f2
  (12194 * 12194 * f4) /
    ((f2 + 20.6 * 20.6) * mm.sqrtQ ((f2 + 107.7 * 107.7) * (f2 + 737.9 * 737.9)) *
      (f2 + 12194 * 12194))

/-- Source `NOTE_NAMES`: the twelve chromatic pitch-class names in order
(C at index 0 up to B at index 11, sharps for the black keys). -/
def NOTE_NAMES : List String :=
  ["C", "C#"] ++ ["D", "D#"] ++ ["E"] ++ ["F", "F#"] ++ ["G", "G#"] ++ ["A", "A#"] ++ ["B"]

/-- Source `frequencyToNote`.  A `none` frequency models a non-finite input
(`NaN` propagates through every arithmetic step and indexes the note table at
`NaN`, producing the garbage label the marker string stands for).  A negative
rounded MIDI number likewise indexes the table out of range in JS, yielding
`undefined`. -/
def frequencyToNote (mm : MathModel) (freq : Option ℚ) : String × ℤ :=
  match freq with
  | none => ("undefinedNaN", 0)
  | some f =>
    if f ≤ 0 then ("N/A", 0)
    else
      let midiNumber := 12 * mm.log2Q (f / 440) + 69
      let roundedMidi := round midiNumber
      let cents := (midiNumber - (roundedMidi : ℚ)) * 100
      let octave := ⌊(roundedMidi : ℚ) / 12⌋ - 1
      let noteIndex := roundedMidi.tmod 12
      let name :=
        if 0 ≤ noteIndex then NOTE_NAMES.getD noteIndex.toNat "undefined" else "undefined"
      (name ++ toString octave, round cents)

/-- Output record of `calculateBands`. -/
structure FrequencyBands where
  bass : ℚ
  mid : ℚ
  treble : ℚ

/-- Accumulator for the single pass of `calculateBands`. -/
structure BandAcc where
  bass : ℚ
  bassWeight : ℚ
  mid : ℚ
  midWeight : ℚ
  treble : ℚ
  trebleWeight : ℚ

/-- Source `calculateBands`: A-weighted average magnitude per band.  The loop
runs over bins `1 ≤ i < length`; the treble bucket excludes the final bin via
`freq < nyquist - binSize`. -/
def calculateBands (mm : MathModel) (frequencies : List ℕ) (sampleRate : ℚ) :
    FrequencyBands :=
  let nyquist := sampleRate / 2
  let binSize := nyquist / (frequencies.length : ℚ)
  let bassEnd : ℤ := ⌊(250 : ℚ) / binSize⌋
  let midEnd : ℤ := ⌊(4000 : ℚ) / binSize⌋
  let acc := (List.range' 1 (frequencies.length - 1)).foldl
    (fun (a : BandAcc) (i : ℕ) =>
      let freq := (i : ℚ) * binSize
      let magnitude := (frequencies.getD i 0 : ℚ) / 255
      let weight := A_WEIGHTING mm freq
      let weightedMagnitude := magnitude * weight
      if (i : ℤ) ≤ bassEnd then
        { a with bass := a.bass + weightedMagnitude, bassWeight := a.bassWeight + weight }
      else if (i : ℤ) ≤ midEnd then
        { a with mid := a.mid + weightedMagnitude, midWeight := a.midWeight + weight }
      else if freq < nyquist - binSize then
        { a with treble := a.treble + weightedMagnitude, trebleWeight := a.trebleWeight + weight }
      else a)
    ⟨0, 0, 0, 0, 0, 0⟩
  { bass := if acc.bassWeight > 0 then acc.bass / acc.bassWeight else 0
    mid := if acc.midWeight > 0 then acc.mid / acc.midWeight else 0
    treble := if acc.trebleWeight > 0 then acc.treble / acc.trebleWeight else 0 }

/-- Output record of `calculateSpectralFeatures`. -/
structure SpectralFeatures where
  centroid : ℚ
  spread : ℚ
  flux : ℚ
  rolloff : ℚ

/-- Rolloff scan of `calculateSpectralFeatures`: walk the bins accumulating
energy and stop at the first bin whose cumulative energy reaches the target
(the loop `break`); 0 if the target is never reached. -/
def rolloffScan (frequencies : List ℕ) (binSize nyquist target : ℚ) :
    List ℕ → ℚ → ℚ
  | [], _ => 0
  | i :: rest, cum =>
    let cum' := cum + (frequencies.getD i 0 : ℚ) / 255
    if cum' ≥ target then ((i : ℚ) * binSize) / nyquist
    else rolloffScan frequencies binSize nyquist target rest cum'

/-- Source `calculateSpectralFeatures`.  Returns the features together with
the updated `prevFrequencies` buffer.  `prevFrequencies` is a fixed
`Float32Array(512)` in the source: a read past its end yields `undefined`, so
the comparison `change > 0` is false and the bin is skipped (modelled by the
`i < prevFrequencies.length` guard); a write past its end is dropped
(modelled by re-indexing over the old buffer's length). -/
def calculateSpectralFeatures (mm : MathModel) (frequencies : List ℕ)
    (sampleRate : ℚ) (prevFrequencies : List ℚ) : SpectralFeatures × List ℚ :=
  let nyquist := sampleRate / 2
  let binSize := nyquist / (frequencies.length : ℚ)
  let idxs := List.range' 1 (frequencies.length - 2)
  let totalEnergy := (idxs.map (fun (i : ℕ) => (frequencies.getD i 0 : ℚ) / 255)).sum
  let centroidSum :=
    (idxs.map (fun (i : ℕ) => ((frequencies.getD i 0 : ℚ) / 255) * ((i : ℚ) * binSize))).sum
  let spectralChanges := idxs.filterMap (fun (i : ℕ) =>
    let magnitude := (frequencies.getD i 0 : ℚ) / 255
    let change := magnitude - prevFrequencies.getD i 0
    if i < prevFrequencies.length ∧ change > 0 then some change else none)
  let flux := calculateMedian spectralChanges
  let centroid := if totalEnergy > 0 then (centroidSum / totalEnergy) / nyquist else 0
  let rolloff := rolloffScan frequencies binSize nyquist (totalEnergy * 0.85) idxs 0
  let centroidHz := centroid * nyquist
  let spreadSum :=
    if totalEnergy > 0 then
      (idxs.map (fun (i : ℕ) =>
        ((frequencies.getD i 0 : ℚ) / 255) *
          (((i : ℚ) * binSize - centroidHz) * ((i : ℚ) * binSize - centroidHz)))).sum
    else 0
  let spread := if totalEnergy > 0 then mm.sqrtQ (spreadSum / totalEnergy) / nyquist else 0
  let prevFrequencies' := (List.range prevFrequencies.length).map (fun (i : ℕ) =>
    if i < frequencies.length then (frequencies.getD i 0 : ℚ) / 255
    else prevFrequencies.getD i 0)
  (⟨min 1 centroid, min 1 spread, min 1 (flux * 10), min 1 rolloff⟩, prevFrequencies')

/-- JavaScript `a < b` where `a` may be `NaN` (`none`): false on `NaN`. -/
def nanLt (a : Option ℚ) (b : Option ℚ) : Bool :=
  match a, b with
  | some x, some y => decide (x < y)
  | _, _ => false

/-- JavaScript `a <= b` where either side may be `NaN`: false on `NaN`. -/
def nanLe (a : Option ℚ) (b : Option ℚ) : Bool :=
  match a, b with
  | some x, some y => decide (x ≤ y)
  | _, _ => false

/-- YIN step 1 (`calculateDifferenceFunction`): squared differences of the
signal against its lagged copy, for lags `0 ≤ τ < bufferSize / 2`.  The
caller guarantees `audioBuffer.length ≥ bufferSize`, so every index read is
in range and the `getD` defaults are never taken. -/
def yinDifference (audioBuffer : List ℚ) (half : ℕ) : List ℚ :=
  (List.range half).map (fun (tau : ℕ) =>
    ((List.range half).map (fun (i : ℕ) =>
      let delta := audioBuffer.getD i 0 - audioBuffer.getD (i + tau) 0
      delta * delta)).sum)

/-- YIN step 2 (`calculateCumulativeMeanNormalizedDifference`): entry 0 is
set to 1; for `τ ≥ 1` the raw value is scaled by `τ / (running sum of raw
values)`.  When that running sum is 0 (an all-zero prefix of the difference
function) the JS expression is `0 * Infinity = NaN`, modelled as `none`. -/
def yinCMND (d : List ℚ) : List (Option ℚ) :=
  match d with
  | [] => []
  | _ :: rest =>
    let step := rest.foldl
      (fun (st : ℚ × List (Option ℚ) × ℕ) (v : ℚ) =>
        let sum' := st.1 + v
        let entry := if sum' = 0 then none else some (v * (st.2.2 : ℚ) / sum')
        (sum', st.2.1 ++ [entry], st.2.2 + 1))
      (0, [], 1)
    some 1 :: step.2.1

/-- Inner walk of YIN step 3: once a value below the threshold is found, keep
moving forward while the next value keeps decreasing (comparisons against a
`NaN` entry are false and stop the walk). -/
def yinWalk (buf : List (Option ℚ)) (tau : ℕ) : ℕ :=
  if h : tau + 1 < buf.length ∧
      nanLt (buf.getD (tau + 1) none) (buf.getD tau none) = true then
    yinWalk buf (tau + 1)
  else tau
termination_by buf.length - tau
decreasing_by omega

/-- Main loop of YIN step 3 (`getAbsoluteThreshold`), starting at `τ = 2`:
return the first local minimum below the threshold; otherwise track the
global minimum (`minVal` starts at 1000) and accept it only if below 0.8,
else return `-1`. -/
def yinSearch (buf : List (Option ℚ)) (threshold : ℚ) (tau : ℕ)
    (minTau : ℤ) (minVal : ℚ) : ℤ :=
  if h : tau < buf.length then
    if nanLt (buf.getD tau none) (some threshold) then (yinWalk buf tau : ℤ)
    else
      let better := nanLt (buf.getD tau none) (some minVal)
      yinSearch buf threshold (tau + 1)
        (if better then (tau : ℤ) else minTau)
        (if better then (buf.getD tau none).getD minVal else minVal)
  else if minTau ≠ -1 ∧ minVal < 0.8 then minTau else -1
termination_by buf.length - tau
decreasing_by omega

/-- YIN step 3 entry point. -/
def getAbsoluteThreshold (buf : List (Option ℚ)) (threshold : ℚ) : ℤ :=
  yinSearch buf threshold 2 (-1) 1000

/-- YIN step 4 (`parabolicInterpolation`): refine the period estimate by the
vertex of the parabola through the three straddling samples.  A vanishing
parabola denominator makes the JS quotient `NaN` or `±Infinity` (and the
refined period with it), modelled as `none`; likewise if any sample involved
is already `NaN`. -/
def parabolicInterpolation (buf : List (Option ℚ)) (tauEstimate : ℕ) : Option ℚ :=
  let x0 := if tauEstimate < 1 then tauEstimate else tauEstimate - 1
  let x2 := if tauEstimate + 1 < buf.length then tauEstimate + 1 else tauEstimate
  if x0 = tauEstimate then
    if nanLe (buf.getD tauEstimate none) (buf.getD x2 none) then some (tauEstimate : ℚ)
    else some (x2 : ℚ)
  else if x2 = tauEstimate then
    if nanLe (buf.getD tauEstimate none) (buf.getD x0 none) then some (tauEstimate : ℚ)
    else some (x0 : ℚ)
  else
    match buf.getD x0 none, buf.getD tauEstimate none, buf.getD x2 none with
    | some s0, some s1, some s2 =>
      let den := 2 * (2 * s1 - s2 - s0)
      if den = 0 then none else some ((tauEstimate : ℚ) + (s2 - s0) / den)
    | _, _, _ => none

/-- `YINPitchDetector.detectPitch`.  Returns `(frequency, probability)`; a
`none` frequency models a non-finite JS value (refined period `NaN`, or a
zero refined period making `sampleRate / betterTau` infinite).  The
probability read at the accepted lag is always a finite entry (a threshold
crossing or the tracked minimum), so its defaults are never taken. -/
def detectPitch (audioBuffer : List ℚ) (sampleRate : ℚ) (bufferSize : ℕ)
    (threshold : ℚ) : Option ℚ × ℚ :=
  if audioBuffer.length < bufferSize then (some 0, 0)
  else
    let d := yinDifference audioBuffer (bufferSize / 2)
    let buf := yinCMND d
    let tauEstimate := getAbsoluteThreshold buf threshold
    if tauEstimate = -1 then (some 0, 0)
    else
      let tn := tauEstimate.toNat
      let betterTau := parabolicInterpolation buf tn
      let frequency : Option ℚ :=
        match betterTau with
        | none => none
        | some t => if t = 0 then none else some (sampleRate / t)
      let probability := 1 - (buf.getD tn (some 1)).getD 1
      (frequency, max 0 (min 1 probability))

/-- Output record of `calculateMelodicFeatures`.  `dominantFrequency` is
`Option ℚ` because the parabolic refinements can produce a non-finite JS
number (see `parabolicInterpolation` and the spectral fallback). -/
structure MelodicFeatures where
  dominantFrequency : Option ℚ
  dominantNote : String
  noteConfidence : ℚ
  harmonicContent : ℚ
  pitchClass : List ℚ

/-- Chroma accumulation loop of `calculateMelodicFeatures`: for each bin with
frequency in `[80, 4000]` Hz, fold the A-weighted magnitude into the rounded
pitch class at weight 0.7 and into the two neighbouring classes at 0.15 each.
`Int.tmod` mirrors the sign behaviour of the JS `%` operator. -/
def chromaAccumulate (mm : MathModel) (frequencies : List ℕ) (sampleRate : ℚ) :
    List ℚ :=
  let nyquist := sampleRate / 2
  let binSize := nyquist / (frequencies.length : ℚ)
  (List.range' 1 (frequencies.length - 1)).foldl
    (fun (chroma : List ℚ) (i : ℕ) =>
      let freq := (i : ℚ) * binSize
      let magnitude := (frequencies.getD i 0 : ℚ) / 255
      if freq < 80 ∨ freq > 4000 then chroma
      else
        let midiNote := 12 * mm.log2Q (freq / 440) + 69
        let pitchClass := (((round midiNote).tmod 12 + 12).tmod 12).toNat
        let weight := magnitude * A_WEIGHTING mm freq
        let c1 := chroma.set pitchClass (chroma.getD pitchClass 0 + weight * 0.7)
        let c2 := c1.set ((pitchClass + 11) % 12)
          (c1.getD ((pitchClass + 11) % 12) 0 + weight * 0.15)
        c2.set ((pitchClass + 1) % 12) (c2.getD ((pitchClass + 1) % 12) 0 + weight * 0.15))
    (List.replicate 12 0)

/-- Chroma normalisation of `calculateMelodicFeatures`: divide by the sum
when it is positive, else leave the vector unchanged. -/
def chromaNormalize (chroma : List ℚ) : List ℚ :=
  let chromaSum := chroma.sum
  if chromaSum > 0 then chroma.map (fun c => c / chromaSum) else chroma

/-- Source `CHROMA_SMOOTHING` (worker constant). -/
def CHROMA_SMOOTHING : ℚ := 0.85

/-- Temporal chroma smoothing of `calculateMelodicFeatures`:
`smoothed ← smoothed * 0.85 + instantaneous * 0.15`, elementwise. -/
def chromaSmoothUpd (prev chroma : List ℚ) : List ℚ :=
  List.zipWith (fun s c => s * CHROMA_SMOOTHING + c * (1 - CHROMA_SMOOTHING)) prev chroma

/-- 3-bin window sum used by the harmonic-content block: bins outside the
array bounds are skipped. -/
def window3 (frequencies : List ℕ) (b : ℤ) : ℚ :=
  (([-1, 0, 1] : List ℤ).map (fun off =>
    let bin := b + off
    if 0 ≤ bin ∧ bin < (frequencies.length : ℤ) then (frequencies.getD bin.toNat 0 : ℚ) / 255
    else 0)).sum

/-- Harmonic-content block of `calculateMelodicFeatures`: compare the 3-bin
energy at the fundamental against the same windows at harmonics 2–6.  A
non-finite dominant frequency (`none`) fails the JS guard `dominantFreq > 0`
and yields 0. -/
def harmonicContentCalc (frequencies : List ℕ) (binSize : ℚ)
    (dominantFreq : Option ℚ) : ℚ :=
  match dominantFreq with
  | none => 0
  | some f =>
    if f > 0 ∧ frequencies.length > 0 then
      let fundamentalBin : ℤ := ⌊f / binSize⌋
      let fundamentalEnergy := window3 frequencies fundamentalBin / 3
      let harmonicEnergy := (([2, 3, 4, 5, 6] : List ℕ).map (fun harmonic =>
        let harmonicBin : ℤ := ⌊f * (harmonic : ℚ) / binSize⌋
        if harmonicBin < (frequencies.length : ℤ) then window3 frequencies harmonicBin / 3
        else 0)).sum
      if fundamentalEnergy > 0.01 then min 1 (harmonicEnergy / (fundamentalEnergy * 5))
      else 0
    else 0

/-- Scan of the spectral-peak fallback: the tallest bin (strictly greater
than the running maximum, so the first of equals wins) among indices
`minBin ≤ i < min maxBinLimit length`.  A negative index reads `undefined`
in JS and never beats the running maximum, modelled by the `0 ≤ lag` guard. -/
def fallbackPeakScan (frequencies : List ℕ) (minBin maxBinLimit : ℤ) : ℕ × ℤ :=
  let count := (min maxBinLimit (frequencies.length : ℤ) - minBin).toNat
  (List.range count).foldl
    (fun (st : ℕ × ℤ) (k : ℕ) =>
      let lag := minBin + (k : ℤ)
      if 0 ≤ lag ∧ frequencies.getD lag.toNat 0 > st.1 then (frequencies.getD lag.toNat 0, lag)
      else st)
    (0, 0)

/-- Worker `calculateMelodicFeatures`.  Takes and returns the
`chromaSmoothing` accumulator (the returned `pitchClass` aliases it in the
source).  The worker's YIN detector is the module constant constructed with
the defaults `(44100, 2048, 0.1)`: the `updateConfig` handler writes a fresh
detector to a different (never read) global property, so it has no effect on
this code path. -/
def calculateMelodicFeatures (mm : MathModel) (chromaSmoothing : List ℚ)
    (waveform frequencies : List ℕ) (sampleRate : ℚ) : MelodicFeatures × List ℚ :=
  let maxValue := (waveform.map (fun (w : ℕ) => |((w : ℚ) - 128) / 128|)).foldl max 0
  let normalizationFactor := if maxValue > 0 then 1 / maxValue else 1
  let float32Waveform := waveform.map (fun (w : ℕ) => (((w : ℚ) - 128) / 128) * normalizationFactor)
  let pitchResult := detectPitch float32Waveform 44100 2048 0.1
  let nyquist := sampleRate / 2
  let binSize := nyquist / (frequencies.length : ℚ)
  -- fallback spectral peak detection (JS: `dominantFreq <= 0` is false on NaN)
  let fb : Option ℚ × ℚ :=
    if nanLe pitchResult.1 (some 0) || decide (pitchResult.2 < 0.3) then
      let minBin : ℤ := ⌊(80 : ℚ) / binSize⌋
      let maxBinLimit : ℤ := ⌊(1000 : ℚ) / binSize⌋
      let scan := fallbackPeakScan frequencies minBin maxBinLimit
      let maxMagnitude := scan.1
      let maxBin := scan.2
      if maxMagnitude > 30 then
        if 0 < maxBin ∧ maxBin < (frequencies.length : ℤ) - 1 then
          let y1 := (frequencies.getD (maxBin - 1).toNat 0 : ℚ)
          let y2 := (frequencies.getD maxBin.toNat 0 : ℚ)
          let y3 := (frequencies.getD (maxBin + 1).toNat 0 : ℚ)
          -- `x0 = (y3 - y1) / (2 * (2*y2 - y1 - y3))`: a zero denominator gives
          -- NaN (or ±Infinity), which propagates into the frequency
          let den := 2 * (2 * y2 - y1 - y3)
          if den = 0 then (none, min 0.8 ((maxMagnitude : ℚ) / 255))
          else (some (((maxBin : ℚ) + (y3 - y1) / den) * binSize),
                min 0.8 ((maxMagnitude : ℚ) / 255))
        else ((some ((maxBin : ℚ) * binSize)), min 0.8 ((maxMagnitude : ℚ) / 255))
      else pitchResult
    else pitchResult
  let note := (frequencyToNote mm fb.1).1
  let chroma := chromaAccumulate mm frequencies sampleRate
  let chromaN := chromaNormalize chroma
  let chromaSmoothing' := chromaSmoothUpd chromaSmoothing chromaN
  let harmonicContent := harmonicContentCalc frequencies binSize fb.1
  (⟨fb.1, note, fb.2, harmonicContent, chromaSmoothing'⟩, chromaSmoothing')

/-- Adaptive `{min, max}` envelope of the dynamics normaliser. -/
structure Envelope where
  min : ℚ
  max : ℚ

/-- Worker `ENVELOPE_CONFIG` constants. -/
def ENVELOPE_minDecay : ℚ := 0.002
def ENVELOPE_maxDecay : ℚ := 0.001
def ENVELOPE_minThreshold : ℚ := 0.02
def ENVELOPE_adaptiveRate : ℚ := 0.1

/-- Worker `calculateDynamicValue`: update the adaptive envelope for one new
value, clamp `min ∈ [0, 0.9]` and `max ∈ [min + 0.1, 1]`, and return the
normalised value (the raw value when the post-clamp range is ≤ 0.01).
Returns `(result, updated envelope)`; the source mutates the envelope in
place. -/
def calculateDynamicValue (value : ℚ) (envelope : Envelope) : ℚ × Envelope :=
  let emax1 :=
    if value > envelope.max then
      value * (1 - ENVELOPE_adaptiveRate) + envelope.max * ENVELOPE_adaptiveRate
    else envelope.max * (1 - ENVELOPE_maxDecay)
  let emin1 :=
    if value < envelope.min then
      value * (1 - ENVELOPE_adaptiveRate) + envelope.min * ENVELOPE_adaptiveRate
    else envelope.min * (1 + ENVELOPE_minDecay) + ENVELOPE_minThreshold
  let emin2 := max 0 (min emin1 0.9)
  let emax2 := max (emin2 + 0.1) (min emax1 1)
  let range := emax2 - emin2
  let result := if range > 0.01 then max 0 (min 1 ((value - emin2) / range)) else value
  (result, ⟨emin2, emax2⟩)

/-- Per-register transient tuning (`TRANSIENT_CONFIG` entries). -/
structure TransientTuning where
  threshold : ℚ
  multiplier : ℚ
  decay : ℚ

def TRANSIENT_CONFIG_bass : TransientTuning := ⟨0.08, 1.8, 0.85⟩
def TRANSIENT_CONFIG_mid : TransientTuning := ⟨0.07, 2.0, 0.9⟩
def TRANSIENT_CONFIG_treble : TransientTuning := ⟨0.06, 2.2, 0.92⟩
def TRANSIENT_CONFIG_overall : TransientTuning := ⟨0.12, 1.7, 0.88⟩

/-- Per-band transient detector state: exponentially smoothed running value
and the rolling history of the last 10 raw values. -/
structure TransState where
  value : ℚ
  history : List ℚ

/-- The four transient detector states (`transientState` in the worker). -/
structure TransientState where
  bass : TransState
  mid : TransState
  treble : TransState
  overall : TransState

/-- Boolean transient flags per tick. -/
structure Transients where
  bass : Bool
  mid : Bool
  treble : Bool
  overall : Bool

/-- Inner `detectBandTransient` of `detectTransients`: shift the oldest value
out of the 10-sample history, push the new one, fire iff the value exceeds
both the adaptive threshold and the smoothed running value times the
multiplier, then update the running value. -/
def detectBandTransient (config : TransientTuning) (state : TransState)
    (value : ℚ) : Bool × TransState :=
  let history := state.history.drop 1 ++ [value]
  let avgHistory := history.sum / (history.length : ℚ)
  let adaptiveThreshold := max config.threshold (avgHistory * config.multiplier)
  let isTransient :=
    decide (value > adaptiveThreshold) && decide (value > state.value * config.multiplier)
  let value' := state.value * config.decay + value * (1 - config.decay)
  (isTransient, ⟨value', history⟩)

/-- Worker `detectTransients`: run the band detector on each band and the
overall detector on the energy, in source order. -/
def detectTransients (ts : TransientState) (currentBands : FrequencyBands)
    (energy : ℚ) : Transients × TransientState :=
  let rb := detectBandTransient TRANSIENT_CONFIG_bass ts.bass currentBands.bass
  let rm := detectBandTransient TRANSIENT_CONFIG_mid ts.mid currentBands.mid
  let rt := detectBandTransient TRANSIENT_CONFIG_treble ts.treble currentBands.treble
  let ro := detectBandTransient TRANSIENT_CONFIG_overall ts.overall energy
  (⟨rb.1, rm.1, rt.1, ro.1⟩, ⟨rb.2, rm.2, rt.2, ro.2⟩)

/-- Drop detector state (`prevNormalizedEnergy`, `dropIntensity`,
`lastDropTime` in the worker). -/
structure DropState where
  prevNormalizedEnergy : ℚ
  dropIntensity : ℚ
  lastDropTime : ℚ

/-- Worker `DROP_CONFIG` constants. -/
def DROP_decay : ℚ := 0.95
def DROP_threshold : ℚ := 0.5
def DROP_cooldown : ℚ := 500

/-- Worker `detectDrop`.  `now` is the `Date.now()` sample taken inside the
function, made an explicit input here.  Returns the updated state, the value
the function returns (the decayed intensity), and whether the trigger branch
was taken (not returned by the source; used to state the temporal claims). -/
def detectDrop (s : DropState) (now normalizedEnergy : ℚ) : DropState × ℚ × Bool :=
  let surge := normalizedEnergy - s.prevNormalizedEnergy
  let triggered :=
    decide (surge > DROP_threshold) && decide (now - s.lastDropTime > DROP_cooldown)
  let dropIntensity1 := if triggered then min 1 surge else s.dropIntensity
  let lastDropTime' := if triggered then now else s.lastDropTime
  let dropIntensity2 := dropIntensity1 * DROP_decay
  (⟨normalizedEnergy, dropIntensity2, lastDropTime'⟩, dropIntensity2, triggered)

/-- `BPMDetector` module-level `autocorrelation`: standard lagged
dot-product over the whole buffer. -/
def autocorrelation (buffer : List ℚ) : List ℚ :=
  (List.range buffer.length).map (fun (lag : ℕ) =>
    ((List.range (buffer.length - lag)).map (fun (i : ℕ) =>
      buffer.getD i 0 * buffer.getD (i + lag) 0)).sum)

/-- Mutable fields of the `BPMDetector` class. -/
structure BPMDetectorState where
  bpmHistory : List ℚ
  lastACF : Option (List ℚ)
  lastBestLag : ℤ
  confidenceHistory : List ℚ

/-- A freshly constructed `BPMDetector`. -/
def initBPMDetector : BPMDetectorState := ⟨[], none, 0, []⟩

/-- `BPMDetector.getStableBPM`: 0 until the BPM history holds at least 5
samples, then the median of the history. -/
def getStableBPM (s : BPMDetectorState) : ℚ :=
  if s.bpmHistory.length < 5 then 0 else sortedMedian s.bpmHistory

/-- Peak scan of `BPMDetector.detectBPM`: over lags
`minLag ≤ lag ≤ min maxLag (length - 1)` keep the strict local maximum with
the greatest correlation.  `none` as the running maximum models the
`-Infinity` initial value. -/
def bpmPeakScan (acf : List ℚ) (minLag maxLag : ℤ) : Option ℚ × ℤ :=
  let count := (min maxLag ((acf.length : ℤ) - 1) - minLag + 1).toNat
  (List.range count).foldl
    (fun (st : Option ℚ × ℤ) (k : ℕ) =>
      let lag := minLag + (k : ℤ)
      if 0 < lag ∧ lag < (acf.length : ℤ) - 1 then
        let a := acf.getD lag.toNat 0
        if decide (a > acf.getD (lag - 1).toNat 0) &&
            decide (a > acf.getD (lag + 1).toNat 0) &&
            st.1.all (fun mc => decide (a > mc)) then (some a, lag)
        else st
      else st)
    (none, 0)

/-- `BPMDetector.detectBPM`: with fewer than 128 ODF samples return the
stable BPM unchanged; otherwise autocorrelate, search the lag range implied
by the 70–190 BPM window for the best local peak, convert it to BPM, push it
into the bounded 15-sample history, and return the stable (median) BPM.
`60 / (bestLag / sampleRate)` is 0 in both JS and this model when
`sampleRate = 0` (JS divides by `Infinity`). -/
def detectBPM (s : BPMDetectorState) (odfHistory : List ℚ) (sampleRate : ℚ) :
    ℚ × BPMDetectorState :=
  if odfHistory.length < 128 then (getStableBPM s, s)
  else
    let acf := autocorrelation odfHistory
    let minLag : ℤ := ⌊sampleRate * 60 / 190⌋
    let maxLag : ℤ := ⌈sampleRate * 60 / 70⌉
    let scan := bpmPeakScan acf minLag maxLag
    let bestLag := scan.2
    let s1 : BPMDetectorState := { s with lastACF := some acf, lastBestLag := bestLag }
    if bestLag > 0 then
      let calculatedBPM := 60 / ((bestLag : ℚ) / sampleRate)
      let hist := s1.bpmHistory ++ [calculatedBPM]
      let hist' := if hist.length > 15 then hist.drop 1 else hist
      let s2 := { s1 with bpmHistory := hist' }
      (getStableBPM s2, s2)
    else (getStableBPM s1, s1)

/-- `BPMDetector.calculatePeakProminence`: ratio of the chosen peak to the
tallest correlation found at `lag ≥ bestLag + 10` (with the JS `|| 1`
fallback when that second peak is 0). -/
def calculatePeakProminence (acf : List ℚ) (bestLag : ℤ) : ℚ :=
  let peakValue := acf.getD bestLag.toNat 0
  let count := ((acf.length : ℤ) - (bestLag + 10)).toNat
  let secondPeak := (List.range count).foldl
    (fun (sp : ℚ) (k : ℕ) => max sp (acf.getD (bestLag + 10 + (k : ℤ)).toNat 0)) 0
  peakValue / (if secondPeak = 0 then 1 else secondPeak)

/-- `BPMDetector.getConfidence`: stability factor from the coefficient of
variation of the BPM history, averaged with the peak-prominence factor when
an autocorrelation is available, then median-smoothed through the bounded
10-sample confidence history.  (The engine only calls this after `detectBPM`
pushed strictly positive BPM values, so `mean` is nonzero on every reachable
state with history length ≥ 5.) -/
def getConfidence (mm : MathModel) (s : BPMDetectorState) : ℚ × BPMDetectorState :=
  if s.bpmHistory.length < 5 then (0, s)
  else
    let n : ℚ := (s.bpmHistory.length : ℚ)
    let mean := s.bpmHistory.sum / n
    let stdDev := mm.sqrtQ ((s.bpmHistory.map (fun x => (x - mean) * (x - mean))).sum / n)
    let stabilityFactor := max 0 (1 - stdDev / (mean * 0.08))
    let currentConfidence :=
      match s.lastACF with
      | some acf =>
        if s.lastBestLag > 0 then
          let prominence := calculatePeakProminence acf s.lastBestLag
          let prominenceFactor := min (prominence / 3) 1
          (prominenceFactor + stabilityFactor) / 2
        else stabilityFactor
      | none => stabilityFactor
    let ch := s.confidenceHistory ++ [currentConfidence]
    let ch' := if ch.length > 10 then ch.drop 1 else ch
    (sortedMedian ch', { s with confidenceHistory := ch' })

/-- JavaScript `%` on numbers: remainder with the sign of the dividend.
Never applied with a zero divisor on the modelled code paths. -/
def jsFmod (a b : ℚ) : ℚ :=
  if b = 0 then 0
  else a - b * ((if a / b ≥ 0 then ⌊a / b⌋ else ⌈a / b⌉ : ℤ) : ℚ)

/-- `BPMDetector.getBeatPhase`: position inside the current beat cycle. -/
def getBeatPhase (currentTime bpm lastBeatTime : ℚ) : ℚ :=
  if bpm = 0 ∨ lastBeatTime = 0 then 0
  else
    let beatDuration := 60 / bpm
    let timeSinceLastBeat := currentTime - lastBeatTime
    jsFmod timeSinceLastBeat beatDuration / beatDuration

/-- `TimbreAnalyzer` key profiles (Krumhansl–Schmuckler weight tables). -/
def MAJOR_PROFILE : List ℚ :=
  [6.35, 2.23, 3.48, 2.33, 4.38, 4.09, 2.52, 5.19, 2.39, 3.66, 2.29, 2.88]
def MINOR_PROFILE : List ℚ :=
  [6.33, 2.68, 3.52, 5.38, 2.60, 3.53, 2.54, 4.75, 3.98, 2.69, 3.34, 3.17]

/-- Output record of `TimbreAnalyzer.analyzeTimbre`. -/
structure TimbreProfile where
  brightness : ℚ
  warmth : ℚ
  richness : ℚ
  clarity : ℚ
  attack : ℚ
  dominantChroma : ℕ
  harmonicComplexity : ℚ

/-- `TimbreAnalyzer.analyzeTimbre`: pure mapping from melodic and spectral
features to the timbre profile.  The dominant-chroma scan keeps the first
strict maximum above the initial 0. -/
def analyzeTimbre (melodic : MelodicFeatures) (spectral : SpectralFeatures) :
    TimbreProfile :=
  let brightness := spectral.centroid
  let warmth := 1 - brightness
  let richness := melodic.harmonicContent
  let clarity := max 0 (1 - spectral.spread)
  let attack := spectral.flux
  let dc := (List.range melodic.pitchClass.length).foldl
    (fun (st : ℚ × ℕ) (i : ℕ) =>
      if melodic.pitchClass.getD i 0 > st.1 then (melodic.pitchClass.getD i 0, i) else st)
    (0, 0)
  let chromaMean := melodic.pitchClass.sum / 12
  let chromaVariance :=
    (melodic.pitchClass.map (fun v => (v - chromaMean) * (v - chromaMean))).sum / 12
  let harmonicComplexity := min 1 (chromaVariance * 10)
  ⟨brightness, warmth, richness, clarity, attack, dc.2, harmonicComplexity⟩

/-- `TimbreAnalyzer.rotateArray`: `result[i] = arr[(i + steps) % n]`. -/
def rotateArray (arr : List ℚ) (steps : ℕ) : List ℚ :=
  (List.range arr.length).map (fun (i : ℕ) => arr.getD ((i + steps) % arr.length) 0)

/-- Accumulator of `TimbreAnalyzer.correlate`. -/
structure CorrAcc where
  sumA : ℚ
  sumB : ℚ
  sumAB : ℚ
  sumA2 : ℚ
  sumB2 : ℚ

/-- `TimbreAnalyzer.correlate`: Pearson correlation with the explicit
zero-denominator guard of the source. -/
def correlate (mm : MathModel) (a b : List ℚ) : ℚ :=
  let n : ℚ := (a.length : ℚ)
  let s := (List.range a.length).foldl
    (fun (st : CorrAcc) (i : ℕ) =>
      let ai := a.getD i 0
      let bi := b.getD i 0
      ⟨st.sumA + ai, st.sumB + bi, st.sumAB + ai * bi,
        st.sumA2 + ai * ai, st.sumB2 + bi * bi⟩)
    ⟨0, 0, 0, 0, 0⟩
  let numerator := n * s.sumAB - s.sumA * s.sumB
  let denominator := mm.sqrtQ ((n * s.sumA2 - s.sumA * s.sumA) * (n * s.sumB2 - s.sumB * s.sumB))
  if denominator = 0 then 0 else numerator / denominator

/-- `TimbreAnalyzer.detectKey`: best of the 24 rotated-profile correlations
(major tested before minor at each root, later strict improvements win);
mode demoted to `"unknown"` when the best correlation is below 0.6 (the root
name is still reported).  Returns `(key, mode, correlation)`. -/
def detectKey (mm : MathModel) (chroma : List ℚ) : String × String × ℚ :=
  let best := (List.range 12).foldl
    (fun (st : String × String × ℚ) (i : ℕ) =>
      let majorCorr := correlate mm chroma (rotateArray MAJOR_PROFILE i)
      let st1 := if majorCorr > st.2.2 then (NOTE_NAMES.getD i "C", "major", majorCorr) else st
      let minorCorr := correlate mm chroma (rotateArray MINOR_PROFILE i)
      if minorCorr > st1.2.2 then (NOTE_NAMES.getD i "C", "minor", minorCorr) else st1)
    ("C", "unknown", -1)
  if best.2.2 < 0.6 then (best.1, "unknown", best.2.2) else best

/-- `TimbreAnalyzer.calculateTension`: dissonant-interval interactions
(minor second, tritone, minor seventh) averaged with the harmonic
complexity, clamped to 1. -/
def calculateTension (chroma : List ℚ) (complexity : ℚ) : ℚ :=
  let tension := ((List.range chroma.length).map (fun (i : ℕ) =>
    (([1, 6, 10] : List ℕ).map (fun interval =>
      chroma.getD i 0 * chroma.getD ((i + interval) % 12) 0)).sum)).sum
  min 1 ((tension + complexity) / 2)

/-- `TimbreAnalyzer.getMostCommon`: JS builds a count object (keys in first
occurrence order) and reduces with `counts[a] > counts[b] ? a : b`, so ties
go to the later key.  Callers guarantee a nonempty argument (JS `reduce`
without an initial value throws on an empty array). -/
def getMostCommon (arr : List String) : String :=
  let keys := arr.foldl (fun (acc : List String) x => if x ∈ acc then acc else acc ++ [x]) []
  match keys with
  | [] => ""
  | k :: rest => rest.foldl (fun a b => if arr.count a > arr.count b then a else b) k

/-- Mutable fields of the `TimbreAnalyzer` class. -/
structure TimbreState where
  noteHistory : List String
  chromaHistory : List (List ℚ)

/-- `TimbreAnalyzer.historySize`. -/
def timbreHistorySize : ℕ := 30

/-- Output record of `TimbreAnalyzer.analyzeMusicalContext`.  `mode` is the
string `"major"`, `"minor"` or `"unknown"`. -/
structure MusicalContext where
  notePresent : Bool
  noteStability : ℚ
  key : String
  mode : String
  tension : ℚ

/-- `TimbreAnalyzer.analyzeMusicalContext`: record the dominant note label
into the bounded 30-sample note history whenever a label exists (the
condition is only `dominantNote !== 'N/A'`), record the chroma vector, gate
`notePresent` on confidence > 0.3 and a label, compute stability as the
fraction of the last 10 recorded labels equal to the most common one (when
`notePresent` and more than 5 labels are recorded), then detect the key and
the tension. -/
def analyzeMusicalContext (mm : MathModel) (ts : TimbreState)
    (melodic : MelodicFeatures) (timbre : TimbreProfile) :
    MusicalContext × TimbreState :=
  let noteHistory :=
    if melodic.dominantNote ≠ "N/A" then
      let h := ts.noteHistory ++ [melodic.dominantNote]
      if h.length > timbreHistorySize then h.drop 1 else h
    else ts.noteHistory
  let chromaHistory :=
    let h := ts.chromaHistory ++ [melodic.pitchClass]
    if h.length > timbreHistorySize then h.drop 1 else h
  let notePresent :=
    decide (melodic.noteConfidence > 0.3) && decide (melodic.dominantNote ≠ "N/A")
  let noteStability :=
    if notePresent ∧ noteHistory.length > 5 then
      let recentNotes := noteHistory.drop (noteHistory.length - 10)
      let mostCommonNote := getMostCommon recentNotes
      ((recentNotes.filter (fun note => note = mostCommonNote)).length : ℚ) /
        (recentNotes.length : ℚ)
    else 0
  let kd := detectKey mm melodic.pitchClass
  let tension := calculateTension melodic.pitchClass timbre.harmonicComplexity
  (⟨notePresent, noteStability, kd.1, kd.2.1, tension⟩, ⟨noteHistory, chromaHistory⟩)

/-- Output record of `calculateRhythmicFeatures`. -/
structure RhythmicFeatures where
  bpm : ℚ
  bpmConfidence : ℚ
  beatPhase : ℚ
  subdivision : ℕ
  groove : ℚ

/-- Worker configuration constants for the rhythm path. -/
def ODF_SAMPLE_RATE : ℚ := 43
def ODF_HISTORY_SIZE : ℕ := 256

/-- Worker `calculateRhythmicFeatures`: push the spectral flux into the
bounded ODF history, run the BPM detector and its confidence, update the
last beat time on an overall transient, compute the beat phase, and read the
subdivision heuristic off the (already updated) transient running values.
Returns the features and the updated
`(odfHistory, BPM detector state, lastBeatTime)`. -/
def calculateRhythmicFeatures (mm : MathModel) (odfHistory : List ℚ)
    (bpmS : BPMDetectorState) (lastBeatTime : ℚ) (ts : TransientState)
    (spectralFlux currentTime : ℚ) (isOverallTransient : Bool) :
    RhythmicFeatures × List ℚ × BPMDetectorState × ℚ :=
  let odf := odfHistory ++ [spectralFlux]
  let odf' := if odf.length > ODF_HISTORY_SIZE then odf.drop 1 else odf
  let rb := detectBPM bpmS odf' ODF_SAMPLE_RATE
  let bpm := rb.1
  let rc := getConfidence mm rb.2
  let confidence := rc.1
  let lastBeatTime' := if isOverallTransient then currentTime else lastBeatTime
  let beatPhase := getBeatPhase currentTime bpm lastBeatTime'
  let subdivision : ℕ :=
    if ts.bass.value > 0.5 ∨ ts.mid.value > 0.5 ∨ ts.treble.value > 0.5 then
      if ts.bass.value > 0.5 ∧ ts.mid.value > 0.5 ∧ ts.treble.value > 0.5 then 4 else 2
    else 1
  (⟨((round (bpm * 10) : ℤ) : ℚ) / 10, confidence * 100,
    ((round (beatPhase * 1000) : ℤ) : ℚ) / 1000, subdivision, confidence * 100⟩,
   odf', rc.2, lastBeatTime')

/-- The full module-level mutable state of the analysis worker. -/
structure EngineState where
  odfHistory : List ℚ
  chromaSmoothing : List ℚ
  lastBeatTime : ℚ
  realSampleRate : ℚ
  prevBands : FrequencyBands
  prevFrequencies : List ℚ
  transientState : TransientState
  bandEnvelopeBass : Envelope
  bandEnvelopeMid : Envelope
  bandEnvelopeTreble : Envelope
  energyEnvelope : Envelope
  drop : DropState
  bpm : BPMDetectorState
  timbre : TimbreState

/-- Worker state at module initialisation (a freshly started worker, i.e. a
freshly reset engine). -/
def initEngineState : EngineState where
  odfHistory := []
  chromaSmoothing := List.replicate 12 0
  lastBeatTime := 0
  realSampleRate := 44100
  prevBands := ⟨0, 0, 0⟩
  prevFrequencies := List.replicate 512 0
  transientState :=
    ⟨⟨0, List.replicate 10 0⟩, ⟨0, List.replicate 10 0⟩,
     ⟨0, List.replicate 10 0⟩, ⟨0, List.replicate 10 0⟩⟩
  bandEnvelopeBass := ⟨0.1, 0.2⟩
  bandEnvelopeMid := ⟨0.1, 0.2⟩
  bandEnvelopeTreble := ⟨0.1, 0.2⟩
  energyEnvelope := ⟨0.1, 0.2⟩
  drop := ⟨0, 0, 0⟩
  bpm := initBPMDetector
  timbre := ⟨[], []⟩

/-- One `RawFrame` as received by the worker `analyze` handler. -/
structure AnalysisData where
  frequencies : List ℕ
  waveform : List ℕ
  sampleRate : ℚ

/-- The `AudioData` feature frame returned by `analyze`. -/
structure AudioData where
  frequencies : List ℕ
  waveform : List ℕ
  volume : ℚ
  bands : FrequencyBands
  dynamicBands : FrequencyBands
  transients : Transients
  energy : ℚ
  dropIntensity : ℚ
  spectralFeatures : SpectralFeatures
  melodicFeatures : MelodicFeatures
  rhythmicFeatures : RhythmicFeatures
  timbreProfile : TimbreProfile
  musicalContext : MusicalContext
  bass : ℚ
  mids : ℚ
  treble : ℚ
  beat : Bool
  smoothedVolume : ℚ

/-- The neutral feature frame built inline by the silent branch of `analyze`.
Note that its `dropIntensity` field is the *expression*
`dropIntensity * DROP_CONFIG.decay`: the module variable itself is not
assigned in this branch. -/
def silentAudioData (s : EngineState) (frequencies waveform : List ℕ) : AudioData where
  frequencies := frequencies
  waveform := waveform
  volume := 0
  bands := ⟨0, 0, 0⟩
  dynamicBands := ⟨0, 0, 0⟩
  transients := ⟨false, false, false, false⟩
  energy := 0
  dropIntensity := s.drop.dropIntensity * DROP_decay
  spectralFeatures := ⟨0, 0, 0, 0⟩
  melodicFeatures := ⟨some 0, "N/A", 0, 0, List.replicate 12 0⟩
  rhythmicFeatures := ⟨0, 0, 0, 1, 0⟩
  timbreProfile := ⟨0, 0, 0, 0, 0, 0, 0⟩
  musicalContext := ⟨false, 0, "C", "unknown", 0⟩
  bass := 0
  mids := 0
  treble := 0
  beat := false
  smoothedVolume := 0

/-- The worker `analyze` function for one tick.  `nowMs` is the `Date.now()`
sample taken by `detectDrop` and `nowPerfMs` the `performance.now()` sample
taken before `calculateRhythmicFeatures`; both are wall-clock readings made
explicit inputs of the model.  The function is total: no exception can be
raised on any input.  `Math.max(...frequencies)` of an empty spread is
`-Infinity`, which also takes the silent branch, matching `foldl max 0 = 0`.
-/
def engineStep (mm : MathModel) (s : EngineState) (data : AnalysisData)
    (nowMs nowPerfMs : ℚ) : EngineState × AudioData :=
  let frequencies := data.frequencies
  let waveform := data.waveform
  let sampleRate := data.sampleRate
  let s0 := { s with realSampleRate := sampleRate }
  let maxFreq := frequencies.foldl max 0
  if maxFreq < 5 then (s0, silentAudioData s frequencies waveform)
  else
    let rms := (waveform.map (fun (w : ℕ) =>
      (((w : ℚ) - 128) / 128) * (((w : ℚ) - 128) / 128))).sum
    let volume := mm.sqrtQ (rms / (waveform.length : ℚ))
    let energySum := ((List.range' 1 (frequencies.length - 2)).map (fun (i : ℕ) =>
      ((frequencies.getD i 0 : ℚ) / 255) * ((frequencies.getD i 0 : ℚ) / 255))).sum
    let energy := mm.sqrtQ (energySum / (((frequencies.length : ℤ) - 2 : ℤ) : ℚ))
    let bands := calculateBands mm frequencies sampleRate
    let sf := calculateSpectralFeatures mm frequencies sampleRate s.prevFrequencies
    let spectralFeatures := sf.1
    let mf := calculateMelodicFeatures mm s.chromaSmoothing waveform frequencies sampleRate
    let melodicFeatures := mf.1
    let db := calculateDynamicValue bands.bass s.bandEnvelopeBass
    let dm := calculateDynamicValue bands.mid s.bandEnvelopeMid
    let dt := calculateDynamicValue bands.treble s.bandEnvelopeTreble
    let dynamicBands : FrequencyBands := ⟨db.1, dm.1, dt.1⟩
    let de := calculateDynamicValue energy s.energyEnvelope
    let normalizedEnergy := de.1
    let dd := detectDrop s.drop nowMs normalizedEnergy
    let currentDropIntensity := dd.2.1
    let tr := detectTransients s.transientState bands energy
    let transients := tr.1
    let currentTime := nowPerfMs / 1000
    let rf := calculateRhythmicFeatures mm s.odfHistory s.bpm s.lastBeatTime tr.2
      spectralFeatures.flux currentTime transients.overall
    let rhythmicFeatures := rf.1
    let timbreProfile := analyzeTimbre melodicFeatures spectralFeatures
    let mc := analyzeMusicalContext mm s.timbre melodicFeatures timbreProfile
    let musicalContext := mc.1
    let s' : EngineState :=
      { odfHistory := rf.2.1
        chromaSmoothing := mf.2
        lastBeatTime := rf.2.2.2
        realSampleRate := sampleRate
        prevBands := bands
        prevFrequencies := sf.2
        transientState := tr.2
        bandEnvelopeBass := db.2
        bandEnvelopeMid := dm.2
        bandEnvelopeTreble := dt.2
        energyEnvelope := de.2
        drop := dd.1
        bpm := rf.2.2.1
        timbre := mc.2 }
    (s', { frequencies := frequencies
           waveform := waveform
           volume := volume
           bands := bands
           dynamicBands := dynamicBands
           transients := transients
           energy := energy
           dropIntensity := currentDropIntensity
           spectralFeatures := spectralFeatures
           melodicFeatures := melodicFeatures
           rhythmicFeatures := rhythmicFeatures
           timbreProfile := timbreProfile
           musicalContext := musicalContext
           bass := dynamicBands.bass
           mids := dynamicBands.mid
           treble := dynamicBands.treble
           beat := transients.overall
           smoothedVolume := volume })

/-- Run a sequence of ticks: each list entry is a raw frame together with
its `Date.now()` and `performance.now()` readings.  Returns the sequence of
produced feature frames and the final engine state. -/
def runEngine (mm : MathModel) (s : EngineState) :
    List (AnalysisData × ℚ × ℚ) → List AudioData × EngineState
  | [] => ([], s)
  | (d, nowMs, nowPerfMs) :: rest =>
    let r := engineStep mm s d nowMs nowPerfMs
    let rr := runEngine mm r.1 rest
    (r.2 :: rr.1, rr.2)

/-! ### Helper lemmas -/

/-- A fold of `max` stays below 5 when the seed and all elements do
(the silent-branch guard `Math.max(...frequencies) < 5`). -/
lemma foldl_max_lt_five (l : List ℕ) : ∀ a : ℕ, a < 5 → (∀ v ∈ l, v < 5) →
    l.foldl max a < 5 := by
  induction l with
  | nil => intro a ha _; simpa using ha
  | cons x xs ih =>
    intro a ha hl
    simp only [List.foldl_cons]
    exact ih (max a x) (Nat.max_lt.mpr ⟨ha, hl x (by simp)⟩)
      (fun v hv => hl v (by simp [hv]))

/-- On a silent frame (`Math.max(...frequencies) < 5`) the `analyze` step
returns the inline neutral frame and only touches `realSampleRate`. -/
lemma engineStep_silent (mm : MathModel) (s : EngineState) (data : AnalysisData)
    (nowMs nowPerfMs : ℚ) (h : data.frequencies.foldl max 0 < 5) :
    engineStep mm s data nowMs nowPerfMs =
      ({ s with realSampleRate := data.sampleRate },
        silentAudioData s data.frequencies data.waveform) := by
  simp only [engineStep]
  rw [if_pos h]

/-! ### C1 -/

/-- C1: for every raw frame whose magnitude spectrum is silent (every bin
strictly below the floor of 5, in particular an all-zero or empty spectrum),
`analyze` returns the defined neutral frame: `volume = 0`, `energy = 0`,
`bpm = 0`, `mode = "unknown"` and all four transient flags false.  The model
of `analyze` is a total function, so no exception is raised. -/
theorem claim_C1_silent_frame_neutral (mm : MathModel) (s : EngineState)
    (data : AnalysisData) (nowMs nowPerfMs : ℚ)
    (h : ∀ v ∈ data.frequencies, v < 5) :
    (engineStep mm s data nowMs nowPerfMs).2.volume = 0 ∧
    (engineStep mm s data nowMs nowPerfMs).2.energy = 0 ∧
    (engineStep mm s data nowMs nowPerfMs).2.rhythmicFeatures.bpm = 0 ∧
    (engineStep mm s data nowMs nowPerfMs).2.musicalContext.mode = "unknown" ∧
    (engineStep mm s data nowMs nowPerfMs).2.transients.bass = false ∧
    (engineStep mm s data nowMs nowPerfMs).2.transients.mid = false ∧
    (engineStep mm s data nowMs nowPerfMs).2.transients.treble = false ∧
    (engineStep mm s data nowMs nowPerfMs).2.transients.overall = false := by
  rw [engineStep_silent mm s data nowMs nowPerfMs
    (foldl_max_lt_five data.frequencies 0 (by norm_num) h)]
  exact ⟨rfl, rfl, rfl, rfl, rfl, rfl, rfl, rfl⟩

/-- Witness for C1 at a concrete silent frame. -/
theorem claim_C1_witness :
    (∀ v ∈ ([0, 4, 0] : List ℕ), v < 5) ∧
    (engineStep refMM initEngineState ⟨[0, 4, 0], [128, 128], 48000⟩ 7 9).2.volume = 0 ∧
    (engineStep refMM initEngineState ⟨[0, 4, 0], [128, 128], 48000⟩ 7 9).2.energy = 0 ∧
    (engineStep refMM initEngineState ⟨[0, 4, 0], [128, 128], 48000⟩ 7 9).2.rhythmicFeatures.bpm = 0 ∧
    (engineStep refMM initEngineState ⟨[0, 4, 0], [128, 128], 48000⟩ 7 9).2.musicalContext.mode = "unknown" ∧
    (engineStep refMM initEngineState ⟨[0, 4, 0], [128, 128], 48000⟩ 7 9).2.transients.bass = false ∧
    (engineStep refMM initEngineState ⟨[0, 4, 0], [128, 128], 48000⟩ 7 9).2.transients.mid = false ∧
    (engineStep refMM initEngineState ⟨[0, 4, 0], [128, 128], 48000⟩ 7 9).2.transients.treble = false ∧
    (engineStep refMM initEngineState ⟨[0, 4, 0], [128, 128], 48000⟩ 7 9).2.transients.overall = false := by
  refine ⟨by decide, ?_⟩
  exact claim_C1_silent_frame_neutral refMM initEngineState
    ⟨[0, 4, 0], [128, 128], 48000⟩ 7 9 (by decide)

/-! ### C10 -/

/-- C10: the silent branch of `analyze` mutates no analysis state: the ODF
history, the BPM detector (BPM history, confidence history, cached
autocorrelation), the chroma smoothing accumulator, the previous-spectrum
buffer, the band and energy envelopes, the transient detector state, the
drop detector state (including `dropIntensity`, which is *not* decayed in
place), the note/chroma histories, the previous bands and the last beat time
are all exactly as before the tick.  (Only `realSampleRate` is overwritten,
with the incoming frame's sample rate, before the silent check.) -/
theorem claim_C10_silent_frame_state (mm : MathModel) (s : EngineState)
    (data : AnalysisData) (nowMs nowPerfMs : ℚ)
    (h : ∀ v ∈ data.frequencies, v < 5) :
    (engineStep mm s data nowMs nowPerfMs).1.odfHistory = s.odfHistory ∧
    (engineStep mm s data nowMs nowPerfMs).1.bpm = s.bpm ∧
    (engineStep mm s data nowMs nowPerfMs).1.chromaSmoothing = s.chromaSmoothing ∧
    (engineStep mm s data nowMs nowPerfMs).1.prevFrequencies = s.prevFrequencies ∧
    (engineStep mm s data nowMs nowPerfMs).1.bandEnvelopeBass = s.bandEnvelopeBass ∧
    (engineStep mm s data nowMs nowPerfMs).1.bandEnvelopeMid = s.bandEnvelopeMid ∧
    (engineStep mm s data nowMs nowPerfMs).1.bandEnvelopeTreble = s.bandEnvelopeTreble ∧
    (engineStep mm s data nowMs nowPerfMs).1.energyEnvelope = s.energyEnvelope ∧
    (engineStep mm s data nowMs nowPerfMs).1.transientState = s.transientState ∧
    (engineStep mm s data nowMs nowPerfMs).1.drop = s.drop ∧
    (engineStep mm s data nowMs nowPerfMs).1.timbre = s.timbre ∧
    (engineStep mm s data nowMs nowPerfMs).1.prevBands = s.prevBands ∧
    (engineStep mm s data nowMs nowPerfMs).1.lastBeatTime = s.lastBeatTime := by
  rw [engineStep_silent mm s data nowMs nowPerfMs
    (foldl_max_lt_five data.frequencies 0 (by norm_num) h)]
  exact ⟨rfl, rfl, rfl, rfl, rfl, rfl, rfl, rfl, rfl, rfl, rfl, rfl, rfl⟩

/-- Witness for C10: a silent tick after state has accumulated leaves the
drop state untouched. -/
theorem claim_C10_witness :
    (∀ v ∈ ([0, 0, 0] : List ℕ), v < 5) ∧
    (engineStep refMM initEngineState ⟨[0, 0, 0], [128], 48000⟩ 11 13).1.drop =
      initEngineState.drop ∧
    (engineStep refMM initEngineState ⟨[0, 0, 0], [128], 48000⟩ 11 13).1.odfHistory =
      initEngineState.odfHistory := by
  have h := claim_C10_silent_frame_state refMM initEngineState
    ⟨[0, 0, 0], [128], 48000⟩ 11 13 (by decide)
  exact ⟨by decide, h.2.2.2.2.2.2.2.2.2.1, h.1⟩

/-! ### C4 -/

/-- The envelope invariant of the dynamics normaliser. -/
def envelopeInv (e : Envelope) : Prop :=
  0 ≤ e.min ∧ e.min ≤ 0.9 ∧ e.min + 0.1 ≤ e.max ∧ e.max ≤ 1

/-- One `calculateDynamicValue` call restores the envelope invariant from
any starting envelope (the final clamps alone enforce it). -/
lemma calculateDynamicValue_inv (value : ℚ) (envelope : Envelope) :
    envelopeInv (calculateDynamicValue value envelope).2 := by
  simp only [calculateDynamicValue, envelopeInv]
  refine ⟨le_max_left _ _, max_le (by norm_num) (min_le_right _ _), le_max_left _ _, ?_⟩
  have h9 : max 0 (min (if value < envelope.min then
      value * (1 - ENVELOPE_adaptiveRate) + envelope.min * ENVELOPE_adaptiveRate
    else envelope.min * (1 + ENVELOPE_minDecay) + ENVELOPE_minThreshold) 0.9) ≤ 0.9 :=
    max_le (by norm_num) (min_le_right _ _)
  exact max_le (by linarith) (min_le_right _ _)

/-- The invariant is preserved along any fold of updates. -/
lemma envelopeInv_foldl (vs : List ℚ) : ∀ e : Envelope, envelopeInv e →
    envelopeInv (vs.foldl (fun e v => (calculateDynamicValue v e).2) e) := by
  induction vs with
  | nil => intro e he; simpa using he
  | cons v vs ih =>
    intro e _
    simp only [List.foldl_cons]
    exact ih _ (calculateDynamicValue_inv v e)

/-- C4: after any single update and after any sequence of updates starting
from the worker's initial envelope `{min := 0.1, max := 0.2}`, the adaptive
envelope satisfies `0 ≤ min ≤ 0.9` and `min + 0.1 ≤ max ≤ 1`; the returned
value lies in `[0, 1]` whenever the post-update range exceeds 0.01, and when
the range is at most 0.01 the raw input value is returned unchanged (after
the clamps the range is in fact always at least 0.1, so that branch never
runs). -/
theorem claim_C4_envelope_invariants (value : ℚ) (envelope : Envelope)
    (vs : List ℚ) :
    envelopeInv (calculateDynamicValue value envelope).2 ∧
    ((calculateDynamicValue value envelope).2.max -
        (calculateDynamicValue value envelope).2.min > 0.01 →
      0 ≤ (calculateDynamicValue value envelope).1 ∧
        (calculateDynamicValue value envelope).1 ≤ 1) ∧
    ((calculateDynamicValue value envelope).2.max -
        (calculateDynamicValue value envelope).2.min ≤ 0.01 →
      (calculateDynamicValue value envelope).1 = value) ∧
    0.1 ≤ (calculateDynamicValue value envelope).2.max -
        (calculateDynamicValue value envelope).2.min ∧
    envelopeInv (vs.foldl (fun e v => (calculateDynamicValue v e).2) ⟨0.1, 0.2⟩) := by
  refine ⟨calculateDynamicValue_inv value envelope, ?_, ?_, ?_,
    envelopeInv_foldl vs ⟨0.1, 0.2⟩ (by constructor <;> norm_num)⟩
  · intro h
    simp only [calculateDynamicValue] at h ⊢
    rw [if_pos h]
    exact ⟨le_max_left _ _, max_le (by norm_num) (min_le_left _ _)⟩
  · intro h
    simp only [calculateDynamicValue] at h ⊢
    rw [if_neg (not_lt.mpr h)]
  · have h := calculateDynamicValue_inv value envelope
    rcases h with ⟨_, _, h3, _⟩
    linarith

/-- Witness for C4 at a concrete value and envelope. -/
theorem claim_C4_witness :
    envelopeInv (calculateDynamicValue 0.5 ⟨0.1, 0.2⟩).2 ∧
    (0 ≤ (calculateDynamicValue 0.5 ⟨0.1, 0.2⟩).1 ∧
      (calculateDynamicValue 0.5 ⟨0.1, 0.2⟩).1 ≤ 1) ∧
    envelopeInv ([0.3, 0.7, 0.05].foldl
      (fun e v => (calculateDynamicValue v e).2) ⟨0.1, 0.2⟩) := by
  have h := claim_C4_envelope_invariants 0.5 ⟨0.1, 0.2⟩ [0.3, 0.7, 0.05]
  exact ⟨h.1, h.2.1 (by norm_num [calculateDynamicValue,
    ENVELOPE_adaptiveRate, ENVELOPE_maxDecay, ENVELOPE_minDecay, ENVELOPE_minThreshold]),
    h.2.2.2.2⟩

/-! ### C5 -/

/-- Feed a sequence of `(odfHistory, sampleRate)` calls into one
`BPMDetector` instance, collecting the returned BPM values. -/
def runDetect (s : BPMDetectorState) : List (List ℚ × ℚ) → List ℚ × BPMDetectorState
  | [] => ([], s)
  | f :: rest =>
    let r := detectBPM s f.1 f.2
    let rr := runDetect r.2 rest
    (r.1 :: rr.1, rr.2)

/-- With fewer than 128 ODF samples, `detectBPM` changes nothing and returns
the stable BPM of the unchanged state. -/
lemma detectBPM_short (s : BPMDetectorState) (odfHistory : List ℚ)
    (sampleRate : ℚ) (h : odfHistory.length < 128) :
    detectBPM s odfHistory sampleRate = (getStableBPM s, s) := by
  simp only [detectBPM]
  rw [if_pos h]

/-- Every exit of `detectBPM` returns `getStableBPM` of the state it pairs
with the result. -/
lemma detectBPM_stable (s : BPMDetectorState) (odfHistory : List ℚ)
    (sampleRate : ℚ) :
    (detectBPM s odfHistory sampleRate).1 =
      getStableBPM (detectBPM s odfHistory sampleRate).2 := by
  simp only [detectBPM]
  by_cases h : odfHistory.length < 128
  · rw [if_pos h]
  · rw [if_neg h]
    by_cases hb : (bpmPeakScan (autocorrelation odfHistory)
        ⌊sampleRate * 60 / 190⌋ ⌈sampleRate * 60 / 70⌉).2 > 0
    · rw [if_pos hb]
    · rw [if_neg hb]

/-- Push-then-shift keeps a list bounded at 15 elements. -/
lemma push_trim_length (l : List ℚ) (x : ℚ) (h : l.length ≤ 15) :
    (if (l ++ [x]).length > 15 then (l ++ [x]).drop 1 else l ++ [x]).length ≤ 15 := by
  by_cases h2 : (l ++ [x]).length > 15
  · rw [if_pos h2]
    simp only [List.length_drop, List.length_append, List.length_cons, List.length_nil]
    omega
  · rw [if_neg h2]
    simp only [List.length_append, List.length_cons, List.length_nil] at h2 ⊢
    omega

/-- The push-and-shift of `detectBPM` keeps the BPM history bounded at 15. -/
lemma detectBPM_bounded (s : BPMDetectorState) (odfHistory : List ℚ)
    (sampleRate : ℚ) (h : s.bpmHistory.length ≤ 15) :
    (detectBPM s odfHistory sampleRate).2.bpmHistory.length ≤ 15 := by
  simp only [detectBPM]
  by_cases h1 : odfHistory.length < 128
  · rw [if_pos h1]; exact h
  · rw [if_neg h1]
    by_cases hb : (bpmPeakScan (autocorrelation odfHistory)
        ⌊sampleRate * 60 / 190⌋ ⌈sampleRate * 60 / 70⌉).2 > 0
    · rw [if_pos hb]
      exact push_trim_length s.bpmHistory _ h
    · rw [if_neg hb]; exact h

/-- A fresh detector stays fresh and keeps answering 0 under any sequence of
short (< 128 samples) ODF feeds. -/
lemma runDetect_short : ∀ feeds : List (List ℚ × ℚ),
    (∀ f ∈ feeds, f.1.length < 128) →
    (runDetect initBPMDetector feeds).1 = List.replicate feeds.length 0 ∧
    (runDetect initBPMDetector feeds).2 = initBPMDetector := by
  intro feeds
  induction feeds with
  | nil => intro _; exact ⟨rfl, rfl⟩
  | cons f rest ih =>
    intro hshort
    have hf := hshort f (List.mem_cons_self f rest)
    have hrest := ih (fun g hg => hshort g (List.mem_cons_of_mem f hg))
    simp only [runDetect, detectBPM_short initBPMDetector f.1 f.2 hf]
    refine ⟨?_, hrest.2⟩
    simp only [List.length_cons, List.replicate_succ, hrest.1]
    have h0 : getStableBPM initBPMDetector = 0 := by decide
    rw [h0]

/-- C5: `detectBPM` returns 0 whenever the BPM history it finishes with
holds fewer than 5 samples, and otherwise returns the median
(`sortedMedian`) of that history; the history stays bounded at 15 samples;
and a freshly constructed detector fed any sequence of ODF histories shorter
than 128 samples returns 0 on every call and never changes state (the model
is total, so no exception is raised). -/
theorem claim_C5_bpm_history_gate (s : BPMDetectorState) (odfHistory : List ℚ)
    (sampleRate : ℚ) (feeds : List (List ℚ × ℚ))
    (hshort : ∀ f ∈ feeds, f.1.length < 128) (hbound : s.bpmHistory.length ≤ 15) :
    ((detectBPM s odfHistory sampleRate).2.bpmHistory.length < 5 →
      (detectBPM s odfHistory sampleRate).1 = 0) ∧
    (5 ≤ (detectBPM s odfHistory sampleRate).2.bpmHistory.length →
      (detectBPM s odfHistory sampleRate).1 =
        sortedMedian (detectBPM s odfHistory sampleRate).2.bpmHistory) ∧
    (detectBPM s odfHistory sampleRate).2.bpmHistory.length ≤ 15 ∧
    (runDetect initBPMDetector feeds).1 = List.replicate feeds.length 0 ∧
    (runDetect initBPMDetector feeds).2 = initBPMDetector := by
  refine ⟨?_, ?_, detectBPM_bounded s odfHistory sampleRate hbound, ?_⟩
  · intro h
    rw [detectBPM_stable]
    simp only [getStableBPM]
    rw [if_pos h]
  · intro h
    rw [detectBPM_stable]
    simp only [getStableBPM]
    rw [if_neg (by omega)]
  · exact runDetect_short feeds hshort

/-- Witness for C5: a detector whose history already holds 5 samples reports
their median even on a short ODF feed, and two short feeds into a fresh
detector both report 0. -/
theorem claim_C5_witness :
    (5 ≤ (detectBPM ⟨[100, 101, 102, 103, 104], none, 0, []⟩ [] 43).2.bpmHistory.length →
      (detectBPM ⟨[100, 101, 102, 103, 104], none, 0, []⟩ [] 43).1 =
        sortedMedian (detectBPM ⟨[100, 101, 102, 103, 104], none, 0, []⟩ [] 43).2.bpmHistory) ∧
    (runDetect initBPMDetector [([0, 1, 0], 43), ([], 43)]).1 = List.replicate 2 0 := by
  have h := claim_C5_bpm_history_gate ⟨[100, 101, 102, 103, 104], none, 0, []⟩ [] 43
    [([0, 1, 0], 43), ([], 43)] (by decide) (by decide)
  exact ⟨h.2.1, h.2.2.2.1⟩

/-! ### Concrete frames used by the closed evaluations below -/

/-- A loud 3-bin frame: single energetic bin, flat waveform.  At a 48 kHz
sample rate all of its bins lie above 4000 Hz (outside the chroma range) and
below the pitch-fallback search range, and its RMS energy is the exact
rational `200 / 255`, so every square root taken along this frame's
processing is of a perfect square. -/
def fHigh : AnalysisData := ⟨[0, 200, 0], [128, 128, 128, 128], 48000⟩

/-- Like `fHigh` but barely non-silent (`Math.max = 5` is not `< 5`). -/
def fLow : AnalysisData := ⟨[0, 5, 0], [128, 128, 128, 128], 48000⟩

/-- A silent frame (all bins below the floor of 5). -/
def fSilent : AnalysisData := ⟨[0, 0, 0], [128, 128, 128, 128], 48000⟩

/-! ### C6 -/

/-- C6 counterexample: from a freshly started worker, a loud frame triggers
the drop detector (stored intensity becomes 0.95); the next two ticks are
silent.  The two silent ticks both *report* `0.95 * 0.95 = 0.9025` — the
reported value is constant, not strictly decreasing — and the *stored*
intensity after the silent tick is still `19/20 = 0.95`, not decayed to
`0.95 * 0.95`: the silent branch computes `dropIntensity * decay` for the
returned frame but never assigns the module variable.  This refutes the
claim that the stored `dropIntensity` decays on every tick and that the
reported value strictly decreases over trigger-free ticks. -/
theorem claim_C6_counterexample :
    ((runEngine refMM initEngineState
        [(fHigh, 1000000000, 1000), (fSilent, 1000000033, 1033),
         (fSilent, 1000000066, 1066)]).1.getD 1
      (silentAudioData initEngineState [] [])).dropIntensity = 361 / 400 ∧
    ((runEngine refMM initEngineState
        [(fHigh, 1000000000, 1000), (fSilent, 1000000033, 1033),
         (fSilent, 1000000066, 1066)]).1.getD 2
      (silentAudioData initEngineState [] [])).dropIntensity = 361 / 400 ∧
    (runEngine refMM initEngineState
        [(fHigh, 1000000000, 1000), (fSilent, 1000000033, 1033)]).2.drop.dropIntensity
      = 19 / 20 ∧
    (19 : ℚ) / 20 ≠ (19 / 20) * DROP_decay := by
  refine ⟨by with_unfolding_all decide, by with_unfolding_all decide,
    by with_unfolding_all decide, by with_unfolding_all decide⟩

/-- C6 (amended): `detectDrop` — reached only on non-silent ticks — always
multiplies the stored intensity by the 0.95 decay factor (after an optional
trigger reset), so over consecutive non-silent trigger-free ticks a nonzero
stored intensity strictly decreases; on a silent tick the stored drop state
is unchanged and the engine merely *reports* the stored intensity times
0.95. -/
theorem claim_C6_amended (d : DropState) (now e : ℚ) (mm : MathModel)
    (s : EngineState) (data : AnalysisData) (nowMs nowPerfMs : ℚ) :
    ((detectDrop d now e).1.dropIntensity =
      (if (detectDrop d now e).2.2 then min 1 (e - d.prevNormalizedEnergy)
       else d.dropIntensity) * DROP_decay) ∧
    ((detectDrop d now e).2.2 = false → 0 < d.dropIntensity →
      (detectDrop d now e).1.dropIntensity < d.dropIntensity) ∧
    ((detectDrop d now e).2.1 = (detectDrop d now e).1.dropIntensity) ∧
    ((∀ v ∈ data.frequencies, v < 5) →
      (engineStep mm s data nowMs nowPerfMs).1.drop = s.drop ∧
      (engineStep mm s data nowMs nowPerfMs).2.dropIntensity =
        s.drop.dropIntensity * DROP_decay) := by
  refine ⟨rfl, ?_, rfl, ?_⟩
  · intro hfalse hpos
    have hd : (detectDrop d now e).1.dropIntensity = d.dropIntensity * DROP_decay := by
      simp only [detectDrop] at hfalse ⊢
      rw [if_neg (by rw [hfalse]; exact Bool.false_ne_true)]
    rw [hd]
    exact mul_lt_of_lt_one_right hpos (by norm_num [DROP_decay])
  · intro h
    rw [engineStep_silent mm s data nowMs nowPerfMs
      (foldl_max_lt_five data.frequencies 0 (by norm_num) h)]
    exact ⟨rfl, rfl⟩

/-- Witness for C6 (amended): a non-triggering call strictly decays a
positive stored intensity, and a silent tick leaves the drop state alone. -/
theorem claim_C6_witness :
    (detectDrop ⟨0, 1 / 2, 0⟩ 100 0).1.dropIntensity < (1 : ℚ) / 2 ∧
    (engineStep refMM initEngineState fSilent 5 6).1.drop = initEngineState.drop := by
  have h := claim_C6_amended ⟨0, 1 / 2, 0⟩ 100 0 refMM initEngineState fSilent 5 6
  exact ⟨h.2.1 (by with_unfolding_all decide) (by norm_num),
    (h.2.2.2 (by decide)).1⟩

/-! ### C7 -/

/-- Run the drop detector over a list of `(Date.now() sample, normalised
energy)` ticks, returning the final state. -/
def dropRun (s : DropState) : List (ℚ × ℚ) → DropState
  | [] => s
  | t :: rest => dropRun (detectDrop s t.1 t.2).1 rest

/-- One `detectDrop` call never moves `lastDropTime` backwards (a trigger
requires `now - lastDropTime > 500`). -/
lemma detectDrop_lastDropTime_le (s : DropState) (now e : ℚ) :
    s.lastDropTime ≤ (detectDrop s now e).1.lastDropTime := by
  show s.lastDropTime ≤
    (if (decide (e - s.prevNormalizedEnergy > DROP_threshold) &&
        decide (now - s.lastDropTime > DROP_cooldown)) = true
     then now else s.lastDropTime)
  split
  · next htrig =>
    rw [Bool.and_eq_true] at htrig
    have h2 : now - s.lastDropTime > DROP_cooldown := of_decide_eq_true htrig.2
    have hc : (0 : ℚ) < DROP_cooldown := by norm_num [DROP_cooldown]
    linarith
  · exact le_refl _

/-- `lastDropTime` is monotone along any run. -/
lemma dropRun_lastDropTime_le : ∀ (l : List (ℚ × ℚ)) (s : DropState),
    s.lastDropTime ≤ (dropRun s l).lastDropTime := by
  intro l
  induction l with
  | nil => intro s; exact le_refl _
  | cons t rest ih =>
    intro s
    exact le_trans (detectDrop_lastDropTime_le s t.1 t.2) (ih _)

/-- A triggering call stamps `lastDropTime` with its `now`. -/
lemma detectDrop_trig_sets (s : DropState) (now e : ℚ)
    (h : (detectDrop s now e).2.2 = true) :
    (detectDrop s now e).1.lastDropTime = now := by
  have h' : (decide (e - s.prevNormalizedEnergy > DROP_threshold) &&
      decide (now - s.lastDropTime > DROP_cooldown)) = true := h
  show (if (decide (e - s.prevNormalizedEnergy > DROP_threshold) &&
      decide (now - s.lastDropTime > DROP_cooldown)) = true
    then now else s.lastDropTime) = now
  rw [if_pos h']

/-- A trigger certifies that the cooldown had elapsed. -/
lemma detectDrop_trig_time (s : DropState) (now e : ℚ)
    (h : (detectDrop s now e).2.2 = true) :
    now - s.lastDropTime > DROP_cooldown := by
  have h' : (decide (e - s.prevNormalizedEnergy > DROP_threshold) &&
      decide (now - s.lastDropTime > DROP_cooldown)) = true := h
  rw [Bool.and_eq_true] at h'
  exact of_decide_eq_true h'.2

/-- C7: the drop detector triggers at most once per cooldown interval.  For
any starting state and any run, if the tick at time `ti` (reached after the
`pre` ticks) triggers, then every later tick at a time `tj` with
`tj - ti ≤ 500` — whatever happened on the `mid` ticks in between — does not
trigger, even if its energy surge exceeds the threshold. -/
theorem claim_C7_cooldown (s : DropState) (pre mid : List (ℚ × ℚ))
    (ti ei tj ej : ℚ)
    (hi : (detectDrop (dropRun s pre) ti ei).2.2 = true)
    (hj : tj - ti ≤ DROP_cooldown) :
    (detectDrop (dropRun (detectDrop (dropRun s pre) ti ei).1 mid) tj ej).2.2 = false := by
  have h1 : (detectDrop (dropRun s pre) ti ei).1.lastDropTime = ti :=
    detectDrop_trig_sets _ ti ei hi
  have h2 : ti ≤ (dropRun (detectDrop (dropRun s pre) ti ei).1 mid).lastDropTime := by
    conv_lhs => rw [← h1]
    exact dropRun_lastDropTime_le mid _
  cases hcase : (detectDrop (dropRun (detectDrop (dropRun s pre) ti ei).1 mid) tj ej).2.2 with
  | false => rfl
  | true =>
    exfalso
    have h3 := detectDrop_trig_time _ tj ej hcase
    linarith

/-- Witness for C7: a trigger at time 1000 suppresses a second
over-threshold surge at time 1300. -/
theorem claim_C7_witness :
    (detectDrop (dropRun ⟨0, 0, 0⟩ []) 1000 1).2.2 = true ∧
    (detectDrop (dropRun (detectDrop (dropRun ⟨0, 0, 0⟩ []) 1000 1).1 []) 1300 5).2.2 = false := by
  refine ⟨by with_unfolding_all decide, ?_⟩
  exact claim_C7_cooldown ⟨0, 0, 0⟩ [] [] 1000 1 1300 5
    (by with_unfolding_all decide) (by norm_num [DROP_cooldown])

/-! ### C3 -/

set_option maxRecDepth 40000 in
/-- C3 counterexample: the exact same ordered sequence of raw frames, fed
into a freshly-reset engine, produces *different* feature frames when the
engine runs at different wall-clock times: with ticks 33 ms apart the third
frame's surge falls inside the 500 ms drop cooldown (`dropIntensity`
continues its decay), while with ticks 300–400 ms apart it triggers a new
drop.  The tick outputs therefore do not depend only on the input frames:
`Date.now()` (and `performance.now()`) are hidden inputs of the analysis
path. -/
theorem claim_C3_counterexample :
    ((runEngine refMM initEngineState
        [(fHigh, 1000000000, 1000), (fLow, 1000000033, 1033),
         (fHigh, 1000000066, 1066)]).1.getD 2
      (silentAudioData initEngineState [] [])).dropIntensity ≠
    ((runEngine refMM initEngineState
        [(fHigh, 2000000000, 1000), (fLow, 2000000300, 1300),
         (fHigh, 2000000700, 1700)]).1.getD 2
      (silentAudioData initEngineState [] [])).dropIntensity := by
  with_unfolding_all decide

/-- C3 (amended): the analysis path is deterministic given the input frames
*and* the wall-clock samples: `runEngine` is a pure function of the engine
state, the ordered frames and the `Date.now()` / `performance.now()`
readings, so two runs that agree on all of those (in particular two replays
with identical timestamps into a freshly-reset engine) produce identical
feature-frame sequences — there is no randomness or further hidden input. -/
theorem claim_C3_amended_determinism (mm : MathModel) (s : EngineState)
    (ticks₁ ticks₂ : List (AnalysisData × ℚ × ℚ)) (h : ticks₁ = ticks₂) :
    runEngine mm s ticks₁ = runEngine mm s ticks₂ := by
  rw [h]

/-- Witness for C3 (amended) at a concrete replayed run. -/
theorem claim_C3_witness :
    runEngine refMM initEngineState [(fHigh, 0, 0)] =
      runEngine refMM initEngineState [(fHigh, 0, 0)] :=
  claim_C3_amended_determinism refMM initEngineState
    [(fHigh, 0, 0)] [(fHigh, 0, 0)] rfl

/-! ### C2 -/

/-- A non-silent frame whose pitch-fallback search lands on a flat three-bin
plateau: bins 4–6 all equal 40 at a 256 Hz sample rate (bin width 16 Hz, so
the `[80, 1000]` Hz search starts at bin 5).  The waveform is shorter than
the YIN detector's 2048-sample buffer, so YIN reports `(0, 0)` and the
fallback runs. -/
def nanFrame : AnalysisData := ⟨[0, 0, 0, 0, 40, 40, 40, 0], [128, 128, 128, 128], 256⟩

/-- C2: on `nanFrame` the spectral-peak fallback's parabolic interpolation
computes `x0 = (y3 - y1) / (2 * (2*y2 - y1 - y3)) = 0 / 0 = NaN` (the same
unguarded formula as `YINPitchDetector.parabolicInterpolation`), so the
feature frame's `melodicFeatures.dominantFrequency` is `NaN` — not a
numerically valid value — contradicting the output contract.  The frame is
not silent (`Math.max = 40 ≥ 5`), so this is a real analysis tick. -/
theorem claim_C2_nan_dominant_frequency :
    ¬(nanFrame.frequencies.foldl max 0 < 5) ∧
    (engineStep refMM initEngineState nanFrame 1000 2000).2.melodicFeatures.dominantFrequency
      = none := by
  exact ⟨by decide, by with_unfolding_all decide⟩

/-! ### C8 -/

/-- Dividing every element by a constant divides the sum. -/
lemma sum_map_div (l : List ℚ) (c : ℚ) :
    (l.map (fun x => x / c)).sum = l.sum / c := by
  induction l with
  | nil => simp
  | cons x xs ih => simp [ih, add_div]

/-- `chromaNormalize` keeps the length. -/
lemma chromaNormalize_length (l : List ℚ) :
    (chromaNormalize l).length = l.length := by
  simp only [chromaNormalize]
  split <;> simp

/-- A normalised chroma vector with positive mass sums to exactly 1. -/
lemma chromaNormalize_sum (l : List ℚ) (h : l.sum > 0) :
    (chromaNormalize l).sum = 1 := by
  simp only [chromaNormalize]
  rw [if_pos h, sum_map_div, div_self (ne_of_gt h)]

/-- The sum after one exponential-smoothing update of equally long vectors. -/
lemma chromaSmoothUpd_sum : ∀ (a b : List ℚ), a.length = b.length →
    (chromaSmoothUpd a b).sum =
      CHROMA_SMOOTHING * a.sum + (1 - CHROMA_SMOOTHING) * b.sum := by
  intro a
  induction a with
  | nil =>
    intro b hb
    cases b with
    | nil => simp [chromaSmoothUpd]
    | cons y ys => simp at hb
  | cons x xs ih =>
    intro b hb
    cases b with
    | nil => simp at hb
    | cons y ys =>
      simp only [chromaSmoothUpd, List.zipWith_cons_cons, List.sum_cons] at *
      rw [ih ys (by simpa using hb)]
      ring

/-- C8 (amended): the vector the engine reports is the exponentially
smoothed accumulator, not the instantaneous chroma, and its sum obeys the
smoothing recurrence rather than being 1 on every non-silent tick.
Precisely: when the accumulated 80–4000 Hz chroma mass is positive, the
instantaneous vector is normalised to sum exactly 1 *before* smoothing and
the reported sum is `0.85 * previous + 0.15` (on a fresh engine's first
such tick: 0.15); when the accumulated mass is not positive, the
normalisation step leaves the accumulator unchanged and the reported sum is
`0.85 * previous + 0.15 * (accumulated sum)` — in particular, on a
non-silent tick with no in-range mass (accumulated sum 0) the reported sum
*decays* to `0.85 * previous`.  In both cases the engine's `pitchClass` is
exactly this smoothed vector. -/
theorem claim_C8_amended (mm : MathModel) (frequencies waveform : List ℕ)
    (sampleRate : ℚ) (prev : List ℚ)
    (hlen : prev.length = (chromaAccumulate mm frequencies sampleRate).length) :
    ((chromaAccumulate mm frequencies sampleRate).sum > 0 →
      (chromaNormalize (chromaAccumulate mm frequencies sampleRate)).sum = 1 ∧
      (chromaSmoothUpd prev
          (chromaNormalize (chromaAccumulate mm frequencies sampleRate))).sum =
        CHROMA_SMOOTHING * prev.sum + (1 - CHROMA_SMOOTHING)) ∧
    (¬((chromaAccumulate mm frequencies sampleRate).sum > 0) →
      chromaNormalize (chromaAccumulate mm frequencies sampleRate) =
        chromaAccumulate mm frequencies sampleRate ∧
      (chromaSmoothUpd prev (chromaAccumulate mm frequencies sampleRate)).sum =
        CHROMA_SMOOTHING * prev.sum +
          (1 - CHROMA_SMOOTHING) * (chromaAccumulate mm frequencies sampleRate).sum) ∧
    (calculateMelodicFeatures mm prev waveform frequencies sampleRate).1.pitchClass =
      chromaSmoothUpd prev (chromaNormalize (chromaAccumulate mm frequencies sampleRate)) := by
  refine ⟨?_, ?_, rfl⟩
  · intro hsum
    have h1 := chromaNormalize_sum _ hsum
    refine ⟨h1, ?_⟩
    have hl : prev.length =
        (chromaNormalize (chromaAccumulate mm frequencies sampleRate)).length := by
      rw [chromaNormalize_length]; exact hlen
    rw [chromaSmoothUpd_sum _ _ hl, h1, mul_one]
  · intro hsum
    have h0 : chromaNormalize (chromaAccumulate mm frequencies sampleRate) =
        chromaAccumulate mm frequencies sampleRate := by
      simp only [chromaNormalize]
      rw [if_neg hsum]
    exact ⟨h0, chromaSmoothUpd_sum _ _ hlen⟩

/-- Witness for C8 (amended): a mass-bearing frame and fresh accumulator
(reported sum 0.15), and a no-mass frame (all bins above 4000 Hz) whose
smoothing decays a stored sum of `3/20` to `0.85 * 3/20 = 51/400`. -/
theorem claim_C8_witness :
    (chromaNormalize (chromaAccumulate refMM [0, 100, 0, 0] 2000)).sum = 1 ∧
    (chromaSmoothUpd (List.replicate 12 0)
        (chromaNormalize (chromaAccumulate refMM [0, 100, 0, 0] 2000))).sum =
      CHROMA_SMOOTHING * (List.replicate 12 (0 : ℚ)).sum + (1 - CHROMA_SMOOTHING) ∧
    (chromaAccumulate refMM [0, 200, 0] 48000).sum = 0 ∧
    (chromaSmoothUpd (List.replicate 12 (1 / 80))
        (chromaNormalize (chromaAccumulate refMM [0, 200, 0] 48000))).sum = 51 / 400 := by
  have h1 := claim_C8_amended refMM [0, 100, 0, 0] [128, 128, 128, 128] 2000
    (List.replicate 12 0) (by with_unfolding_all decide)
  have h2 := claim_C8_amended refMM [0, 200, 0] [128, 128, 128, 128] 48000
    (List.replicate 12 (1 / 80)) (by with_unfolding_all decide)
  have hm := h1.1 (by with_unfolding_all decide)
  have hz : (chromaAccumulate refMM [0, 200, 0] 48000).sum = 0 := by
    with_unfolding_all decide
  have hn := h2.2.1 (by rw [hz]; norm_num)
  refine ⟨hm.1, hm.2, hz, ?_⟩
  rw [hn.1, hn.2, hz]
  simp only [List.sum_replicate, CHROMA_SMOOTHING]
  norm_num

/-- A non-silent frame with all its energy at 250 Hz (inside the chroma
range), sample rate 2000 Hz, fed to a freshly started engine. -/
def chromaFrame : AnalysisData := ⟨[0, 100, 0, 0], [128, 128, 128, 128], 2000⟩

set_option maxRecDepth 40000 in
/-- C8 counterexample: on the first non-silent tick of a fresh engine the
reported `pitchClass` vector sums to `0.15` (the smoothing accumulator
starts at zero), which is not within `1e-6` of 1 — refuting the claim that
the reported chroma vector of every non-silent frame sums to 1. -/
theorem claim_C8_counterexample :
    ¬(chromaFrame.frequencies.foldl max 0 < 5) ∧
    ((engineStep refMM initEngineState chromaFrame 1000 2000).2.melodicFeatures.pitchClass).sum
      = 3 / 20 ∧
    1 / 1000000 <
      |((engineStep refMM initEngineState chromaFrame 1000 2000).2.melodicFeatures.pitchClass).sum
        - 1| := by
  exact ⟨by decide, by with_unfolding_all decide, by with_unfolding_all decide⟩

/-! ### C9 -/

/-- C9 counterexample: a tick whose dominant-note label is `"A4"` but whose
confidence `0.1` is below the `0.3` floor is nevertheless recorded into the
note-stability window (`noteHistory` grows from `[]` to `["A4"]`); only
`notePresent` is gated by the confidence floor. -/
theorem claim_C9_counterexample :
    (analyzeMusicalContext refMM ⟨[], []⟩
        ⟨some 440, "A4", 1 / 10, 0, List.replicate 12 0⟩
        ⟨0, 0, 0, 0, 0, 0, 0⟩).2.noteHistory = ["A4"] ∧
    (analyzeMusicalContext refMM ⟨[], []⟩
        ⟨some 440, "A4", 1 / 10, 0, List.replicate 12 0⟩
        ⟨0, 0, 0, 0, 0, 0, 0⟩).1.notePresent = false ∧
    ((1 : ℚ) / 10 ≤ 0.3) := by
  exact ⟨by with_unfolding_all decide, by with_unfolding_all decide, by norm_num⟩

/-- C9 (amended): the dominant-note label is recorded into the rolling note
history whenever a label exists (`dominantNote ≠ "N/A"`), *regardless of the
note confidence*; when no label exists the window is unchanged.  The ~0.3
confidence floor gates only `notePresent`, and a tick with `notePresent`
false reports stability 0 for that tick (without blocking the recording). -/
theorem claim_C9_amended (mm : MathModel) (ts : TimbreState)
    (melodic : MelodicFeatures) (timbre : TimbreProfile) :
    (melodic.dominantNote ≠ "N/A" →
      (analyzeMusicalContext mm ts melodic timbre).2.noteHistory =
        (if (ts.noteHistory ++ [melodic.dominantNote]).length > timbreHistorySize
         then (ts.noteHistory ++ [melodic.dominantNote]).drop 1
         else ts.noteHistory ++ [melodic.dominantNote])) ∧
    (melodic.dominantNote = "N/A" →
      (analyzeMusicalContext mm ts melodic timbre).2.noteHistory = ts.noteHistory) ∧
    (analyzeMusicalContext mm ts melodic timbre).1.notePresent =
      (decide (melodic.noteConfidence > 0.3) && decide (melodic.dominantNote ≠ "N/A")) ∧
    ((analyzeMusicalContext mm ts melodic timbre).1.notePresent = false →
      (analyzeMusicalContext mm ts melodic timbre).1.noteStability = 0) := by
  refine ⟨?_, ?_, rfl, ?_⟩
  · intro h
    show (if melodic.dominantNote ≠ "N/A" then _ else _) = _
    rw [if_pos h]
  · intro h
    show (if melodic.dominantNote ≠ "N/A" then _ else _) = _
    rw [if_neg (not_not_intro h)]
  · intro h
    show (if ((decide (melodic.noteConfidence > 0.3) &&
        decide (melodic.dominantNote ≠ "N/A")) = true ∧ _) then _ else (0 : ℚ)) = 0
    rw [if_neg]
    intro hc
    have hp : (analyzeMusicalContext mm ts melodic timbre).1.notePresent = true := hc.1
    rw [h] at hp
    exact Bool.false_ne_true hp

/-- Witness for C9 (amended): a confident labelled tick is appended to a
short history. -/
theorem claim_C9_witness :
    (analyzeMusicalContext refMM ⟨["E4"], []⟩
        ⟨some 261, "C4", 1 / 2, 0, List.replicate 12 0⟩
        ⟨0, 0, 0, 0, 0, 0, 0⟩).2.noteHistory = ["E4", "C4"] := by
  have h := claim_C9_amended refMM ⟨["E4"], []⟩
    ⟨some 261, "C4", 1 / 2, 0, List.replicate 12 0⟩ ⟨0, 0, 0, 0, 0, 0, 0⟩
  rw [h.1 (by decide)]
  with_unfolding_all decide

end AuraSync
